import Mathlib

/-!
# Verification of the Ollama model creator's ModelFile pipeline

Shallow embedding of the ModelFile normalizer / validator / builder /
submission orchestrator of this repository (`src/services/ollama.ts`,
`src/components/create/CreateModel.tsx`), together with theorems settling
the specification claims about them.

JavaScript numbers are modelled as exact rationals (`ℚ`): every numeric
literal the pipeline manipulates is a short decimal, far inside the range
where IEEE-754 doubles are exact and `Number.prototype.toString` prints
the plain decimal form.  `parseFloat` is modelled on its decimal grammar
(sign, digits, fraction, exponent; the `Infinity` literal and double
overflow are out of the modelled range), returning `none` for `NaN`.
Strings are processed through explicit `List Char` primitives mirroring
the JS string methods used by the source (`trim`, `split`, `startsWith`,
`toUpperCase`, `replace` with character-class regexes).
-/

namespace OllamaModelCreator

/-! ## Character and string primitives (JS string methods) -/

/-- ASCII/Unicode whitespace test used by `trim` and `split(/\s+/)`. -/
def isWs (c : Char) : Bool := c.isWhitespace

/-- JS `String.prototype.trim` on a character list. -/
def trimL (l : List Char) : List Char :=
  ((l.dropWhile isWs).reverse.dropWhile isWs).reverse

/-- JS `String.prototype.trim`. -/
def trimS (s : String) : String := ⟨trimL s.data⟩

/-- Split a character list at every character satisfying `p`
(the pieces between separators, empty pieces included). -/
def splitPred (p : Char → Bool) : List Char → List (List Char)
  | [] => [[]]
  | c :: rest =>
    if p c then [] :: splitPred p rest
    else
      match splitPred p rest with
      | [] => [[c]]
      | h :: t => (c :: h) :: t

/-- JS `str.split('\n')`. -/
def linesOf (s : String) : List String :=
  (splitPred (· = '\n') s.data).map String.mk

/-- JS `arr.join('\n')`. -/
def joinNl (l : List String) : String := String.intercalate "\n" l

/-- JS `arr.join(' ')`. -/
def joinSp (l : List String) : String := String.intercalate " " l

/-- JS `str.split(/\s+/)` applied to an already-trimmed string:
the whitespace-delimited tokens (empty pieces dropped). -/
def splitWsL (l : List Char) : List (List Char) :=
  (splitPred isWs l).filter (· ≠ [])

/-- JS `str.split(/\s+/)` on a trimmed string. -/
def splitWsS (s : String) : List String := (splitWsL s.data).map String.mk

/-- `pat` begins the list `l`. -/
def leadsWith : List Char → List Char → Bool
  | _, [] => true
  | [], _ :: _ => false
  | c :: l, p :: ps => c = p && leadsWith l ps

/-- JS `str.startsWith(pat)`. -/
def startsWithS (s pat : String) : Bool := leadsWith s.data pat.data

/-- JS `str.endsWith(pat)`. -/
def endsWithS (s pat : String) : Bool :=
  leadsWith s.data.reverse pat.data.reverse

/-- JS `str.toUpperCase()` (ASCII). -/
def upperS (s : String) : String := ⟨s.data.map Char.toUpper⟩

/-- JS `str.toLowerCase()` (ASCII). -/
def lowerS (s : String) : String := ⟨s.data.map Char.toLower⟩

/-- JS `str.toUpperCase().startsWith(pat)` — the case-insensitive
keyword match the source uses on every directive line. -/
def upperStarts (s pat : String) : Bool := startsWithS (upperS s) pat

/-- `pat` occurs somewhere in `l`. -/
def hasSubL : List Char → List Char → Bool
  | l, pat =>
    match l with
    | [] => pat.isEmpty
    | _ :: rest => leadsWith l pat || hasSubL rest pat

/-- JS `str.includes(pat)`. -/
def includesS (s pat : String) : Bool := hasSubL s.data pat.data

/-- JS `str.substring(n)` / `str.slice(n)`. -/
def dropS (s : String) (n : ℕ) : String := ⟨s.data.drop n⟩

/-- JS `str.slice(n, -n)` for the quote-stripping calls
(`slice(1,-1)`, `slice(3,-3)`): drop `n` from both ends. -/
def sliceEndsS (s : String) (n : ℕ) : String :=
  ⟨(s.data.drop n).reverse.drop n |>.reverse⟩

/-- JS `value.replace(/[^0-9.]/g, '')`. -/
def filterNumeric (s : String) : String :=
  ⟨s.data.filter (fun c => c.isDigit || c = '.')⟩

/-- JS `s.replace(/['"]/g, '')`. -/
def stripQuoteChars (s : String) : String :=
  ⟨s.data.filter (fun c => ¬ (c = '"' ∨ c = '\''))⟩

/-- JS `s.replace(/[^a-zA-Z0-9_-]/g, '')`. -/
def filterNameChars (s : String) : String :=
  ⟨s.data.filter (fun c => c.isAlpha || c.isDigit || c = '_' || c = '-')⟩

/-- JS `/^[a-zA-Z0-9._:-]+$/.test(s)`. -/
def baseModelNameOk (s : String) : Bool :=
  s.data ≠ [] &&
    s.data.all (fun c => c.isAlpha || c.isDigit || c = '.' || c = '_' || c = ':' || c = '-')

/-! ## JS number model -/

/-- Numeric value of a list of decimal digit characters. -/
def natOfDigits (l : List Char) : ℕ :=
  l.foldl (fun acc c => acc * 10 + (c.toNat - '0'.toNat)) 0

/-- Decimal digits of `n`, most significant first (`fuel`-bounded). -/
def natDigitsAux : ℕ → ℕ → List Char
  | 0, _ => []
  | _ + 1, 0 => []
  | fuel + 1, n =>
    natDigitsAux fuel (n / 10) ++ [Char.ofNat ('0'.toNat + n % 10)]

/-- Decimal rendering of a natural number, as JS prints integers. -/
def natToStr (n : ℕ) : String :=
  if n = 0 then "0" else ⟨natDigitsAux (n + 1) n⟩

/-- Decimal rendering of an integer. -/
def intToStr (i : ℤ) : String :=
  if i < 0 then "-" ++ natToStr i.natAbs else natToStr i.natAbs

/-- Multiplicity of `p` in `n` (`fuel`-bounded trial division). -/
def multOfAux (p : ℕ) : ℕ → ℕ → ℕ
  | 0, _ => 0
  | fuel + 1, n =>
    if 2 ≤ p ∧ n ≠ 0 ∧ n % p = 0 then multOfAux p fuel (n / p) + 1 else 0

/-- Multiplicity of `p` in `n`. -/
def multOf (p n : ℕ) : ℕ := multOfAux p n n

/-- Rational addition written via `mkRat`.  (The arithmetic in this
development uses these executable rational operations, value-equal to the
field operations on `ℚ`, so that every definition evaluates by kernel
reduction; the library's `Rat.add`/`Rat.mul` are `@[irreducible]` and the
field-structure operations do not reduce.) -/
def qAdd (a b : ℚ) : ℚ :=
  mkRat (a.num * (b.den : ℤ) + b.num * (a.den : ℤ)) (a.den * b.den)

/-- Rational multiplication written via `mkRat`. -/
def qMul (a b : ℚ) : ℚ := mkRat (a.num * b.num) (a.den * b.den)

/-- Rational negation written via `mkRat`. -/
def qNeg (a : ℚ) : ℚ := mkRat (-a.num) a.den

/-- Rational division written via `mkRat` (division by zero yields `0`;
never reached: every divisor in this development is nonzero). -/
def qDiv (a b : ℚ) : ℚ :=
  if b.num < 0 then mkRat (-(a.num * (b.den : ℤ))) (a.den * b.num.natAbs)
  else mkRat (a.num * (b.den : ℤ)) (a.den * b.num.natAbs)

/-- `10 ^ k` as a rational. -/
def qPow10 (k : ℕ) : ℚ := ((10 ^ k : ℕ) : ℚ)

/-- `Number.prototype.toString` for the nonnegative decimal rationals the
pipeline produces (values of `parseFloat`): the exact decimal numeral with
no trailing zeros.  Total on `ℚ`; the fallback arm for rationals that are
not decimal fractions is unreachable from `jsParseFloat` values. -/
def qToStrNonneg (q : ℚ) : String :=
  let k := max (multOf 2 q.den) (multOf 5 q.den)
  let scaled := qMul q (qPow10 k)
  if scaled.den ≠ 1 then "0" else
    let n := scaled.num.toNat
    if k = 0 then natToStr n
    else
      let frac := natToStr (n % 10 ^ k)
      let pad := String.mk (List.replicate (k - frac.length) '0')
      natToStr (n / 10 ^ k) ++ "." ++ pad ++ frac

/-- `Number.prototype.toString` (template-literal interpolation `${x}`). -/
def qToStr (q : ℚ) : String :=
  if q < 0 then "-" ++ qToStrNonneg (qNeg q) else qToStrNonneg q

/-- Fraction `0.d₁d₂…` named by a digit list. -/
def fracOfDigits (l : List Char) : ℚ :=
  mkRat (natOfDigits l) (10 ^ l.length)

/-- Apply a trailing JS exponent part (`e`/`E`, optional sign, digits) to
an already-parsed mantissa; junk after the number is ignored, as
`parseFloat` ignores it. -/
def applyExp (m : ℚ) : List Char → ℚ
  | c :: rest =>
    if c = 'e' ∨ c = 'E' then
      match rest with
      | '+' :: r =>
        let d := r.takeWhile Char.isDigit
        if d = [] then m else qMul m (qPow10 (natOfDigits d))
      | '-' :: r =>
        let d := r.takeWhile Char.isDigit
        if d = [] then m else qDiv m (qPow10 (natOfDigits d))
      | r =>
        let d := r.takeWhile Char.isDigit
        if d = [] then m else qMul m (qPow10 (natOfDigits d))
    else m
  | [] => m

/-- Unsigned decimal parse: `digits [. digits] [exp]`, requiring at least
one digit; returns `none` (JS `NaN`) otherwise. -/
def parseUnsigned (l : List Char) : Option ℚ :=
  let d1 := l.takeWhile Char.isDigit
  let r1 := l.dropWhile Char.isDigit
  match r1 with
  | '.' :: r2 =>
    let d2 := r2.takeWhile Char.isDigit
    let r3 := r2.dropWhile Char.isDigit
    if d1 = [] ∧ d2 = [] then none
    else some (applyExp (qAdd (natOfDigits d1 : ℚ) (fracOfDigits d2)) r3)
  | _ => if d1 = [] then none else some (applyExp (natOfDigits d1 : ℚ) r1)

/-- JS `parseFloat`: skip leading whitespace, optional sign, longest
decimal-literal position; `none` models `NaN`. -/
def jsParseFloat (s : String) : Option ℚ :=
  match s.data.dropWhile isWs with
  | '-' :: rest => (parseUnsigned rest).map qNeg
  | '+' :: rest => parseUnsigned rest
  | l => parseUnsigned l

/-- JS `Math.round` (half-up, as for every nonnegative argument here). -/
def jsRound (q : ℚ) : ℤ := Rat.floor (qAdd q (mkRat 1 2))

/-- JS `Number.isInteger`. -/
def jsIsInteger (q : ℚ) : Bool := q.den = 1

/-! ## Grammar model: known numeric parameters and their defaults
(`OllamaService.cleanParameterValue`, `src/services/ollama.ts:244-261`) -/

/-- The `numericParams` array. -/
def numericParams : List String :=
  ["temperature", "top_p", "top_k", "repeat_penalty", "num_ctx", "num_predict"]

/-- The `defaults` record, with the `|| '1.0'` fallback of the lookup. -/
def defaultFor (lowerName : String) : String :=
  if lowerName = "temperature" then "0.8"
  else if lowerName = "top_p" then "0.9"
  else if lowerName = "top_k" then "40"
  else if lowerName = "repeat_penalty" then "1.1"
  else if lowerName = "num_ctx" then "2048"
  else if lowerName = "num_predict" then "128"
  else "1.0"

/-! ## Normalizer (`OllamaService.cleanModelFile` / `cleanParameterValue`,
`src/services/ollama.ts:159-268`) -/

/-- `OllamaService.cleanParameterValue` (`src/services/ollama.ts:243-268`):
for a known numeric parameter, strip non-numeric characters, parse, fall
back to the table default on `NaN`, and otherwise re-render the parsed
value; no range clamping is performed. -/
def cleanParameterValue (paramName value : String) : String :=
  if numericParams.contains (lowerS paramName) then
    let cleaned := filterNumeric value
    match jsParseFloat cleaned with
    | none => defaultFor (lowerS paramName)
    | some parsed => qToStr parsed
  else value

/-- The SYSTEM-line rewrite of `cleanModelFile`
(`src/services/ollama.ts:211-226`), applied to the trimmed line:
take the content after `SYSTEM `, strip one surrounding quote pair
(`"…"` checked first, then `'…'`, then the — therefore unreachable —
`"""…"""` case), and wrap the result in triple double quotes. -/
def systemRewrite (trimmedLine : String) : String :=
  let systemContent := trimS (dropS trimmedLine 7)
  let cleanContent :=
    if startsWithS systemContent "\"" ∧ endsWithS systemContent "\"" then
      sliceEndsS systemContent 1
    else if startsWithS systemContent "'" ∧ endsWithS systemContent "'" then
      sliceEndsS systemContent 1
    else if startsWithS systemContent "\"\"\"" ∧ endsWithS systemContent "\"\"\"" then
      sliceEndsS systemContent 3
    else systemContent
  "SYSTEM \"\"\"" ++ cleanContent ++ "\"\"\""

/-- Errors thrown by `cleanModelFile`; `message` renders the exact
`Error` message strings of the source. -/
inductive CleanErr
  | badFromLine
  | missingFrom
deriving DecidableEq, Repr

deriving instance DecidableEq for Except

/-- The thrown `Error` messages (`src/services/ollama.ts:189,234`). -/
def CleanErr.message : CleanErr → String
  | .badFromLine => "FROM instruction must specify a valid base model name"
  | .missingFrom => "ModelFile must contain a FROM instruction specifying the base model"

/-- One iteration of the `cleanModelFile` loop
(`src/services/ollama.ts:164-230`): the emitted line together with
whether the line was recognized as a FROM instruction. -/
def cleanLine (line : String) : Except CleanErr (String × Bool) :=
  let trimmedLine := trimS line
  if trimmedLine = "" then .ok ("", false)
  else if startsWithS trimmedLine "#" then .ok (trimmedLine, false)
  else if upperStarts trimmedLine "FROM " then
    let parts := splitWsS trimmedLine
    if 2 ≤ parts.length ∧ trimS (parts.getD 1 "") ≠ "" then
      .ok ("FROM " ++ stripQuoteChars (trimS (parts.getD 1 "")), true)
    else .error .badFromLine
  else if upperStarts trimmedLine "PARAMETER " then
    let parts := splitWsS trimmedLine
    if 3 ≤ parts.length then
      let paramName := parts.getD 1 ""
      let paramValue := joinSp (parts.drop 2)
      .ok ("PARAMETER " ++ paramName ++ " " ++ cleanParameterValue paramName paramValue, false)
    else .ok (trimmedLine, false)
  else if upperStarts trimmedLine "SYSTEM " then
    .ok (systemRewrite trimmedLine, false)
  else .ok (trimmedLine, false)

/-- The `cleanModelFile` loop over all lines: collected output lines and
whether any FROM instruction was seen. -/
def cleanLines : List String → Except CleanErr (List String × Bool)
  | [] => .ok ([], false)
  | l :: ls =>
    match cleanLine l with
    | .error e => .error e
    | .ok (s, f) =>
      match cleanLines ls with
      | .error e => .error e
      | .ok (rest, fr) => .ok (s :: rest, f || fr)

/-- `OllamaService.cleanModelFile` (`src/services/ollama.ts:159-240`). -/
def cleanModelFile (modelfile : String) : Except CleanErr String :=
  match cleanLines (linesOf modelfile) with
  | .error e => .error e
  | .ok (ls, hasFromInstruction) =>
    if hasFromInstruction then .ok (joinNl ls) else .error .missingFrom

/-! ## Validator (`OllamaService.validateModelFile`,
`src/services/ollama.ts:429-515`) -/

/-- The `{ isValid, errors }` result record. -/
structure ValidationResult where
  isValid : Bool
  errors : List String
deriving DecidableEq, Repr

/-- Range/type check for one numeric parameter
(the `switch (paramName)` at `src/services/ollama.ts:470-496`). -/
def paramRangeErrors (paramName : String) (numValue : ℚ) : List String :=
  if paramName = "temperature" then
    if numValue < mkRat 1 10 ∨ 2 < numValue then
      ["Temperature must be between 0.1 and 2.0, got: " ++ qToStr numValue]
    else []
  else if paramName = "top_p" then
    if numValue < mkRat 1 10 ∨ 1 < numValue then
      ["Top P must be between 0.1 and 1.0, got: " ++ qToStr numValue]
    else []
  else if paramName = "top_k" then
    if numValue < 1 ∨ 100 < numValue ∨ ¬ jsIsInteger numValue then
      ["Top K must be an integer between 1 and 100, got: " ++ qToStr numValue]
    else []
  else if paramName = "repeat_penalty" then
    if numValue < mkRat 1 2 ∨ 2 < numValue then
      ["Repeat penalty must be between 0.5 and 2.0, got: " ++ qToStr numValue]
    else []
  else if paramName = "num_ctx" then
    if numValue < 512 ∨ 32768 < numValue ∨ ¬ jsIsInteger numValue then
      ["Context length must be an integer between 512 and 32768, got: " ++ qToStr numValue]
    else []
  else []

/-- Errors contributed by one PARAMETER line
(`src/services/ollama.ts:455-500`). -/
def paramLineErrors (paramLine : String) : List String :=
  let parts := splitWsS paramLine
  if parts.length < 3 then ["Invalid PARAMETER instruction: " ++ paramLine]
  else
    let paramName := lowerS (parts.getD 1 "")
    let paramValue := parts.getD 2 ""
    if numericParams.contains paramName then
      match jsParseFloat paramValue with
      | none => ["Invalid numeric value for " ++ paramName ++ ": " ++ paramValue]
      | some numValue => paramRangeErrors paramName numValue
    else []

/-- Errors contributed by the FROM lines
(`src/services/ollama.ts:434-451`). -/
def fromErrors (lines : List String) : List String :=
  let fromLines := lines.filter (fun l => upperStarts l "FROM ")
  if fromLines.length = 0 then
    ["ModelFile must contain a FROM instruction specifying the base model"]
  else if 1 < fromLines.length then
    ["ModelFile can only contain one FROM instruction"]
  else
    let fromParts := splitWsS (fromLines.getD 0 "")
    if fromParts.length < 2 ∨ trimS (fromParts.getD 1 "") = "" then
      ["FROM instruction must specify a base model name"]
    else
      let modelName := trimS (fromParts.getD 1 "")
      if baseModelNameOk modelName then []
      else ["Invalid base model name: " ++ modelName ++
            ". Use only letters, numbers, dots, colons, and hyphens."]

/-- Errors contributed by the SYSTEM lines
(`src/services/ollama.ts:503-509`). -/
def systemLineErrors (systemLine : String) : List String :=
  let systemContent := trimS (dropS systemLine 7)
  if systemContent = "" then
    ["SYSTEM instruction cannot be empty: " ++ systemLine]
  else []

/-- `OllamaService.validateModelFile` (`src/services/ollama.ts:429-515`):
trim lines, drop blanks and comments, then accumulate FROM, PARAMETER
and SYSTEM violations in that order; `isValid` is
`errors.length === 0`. -/
def validateModelFile (modelfile : String) : ValidationResult :=
  let lines := ((linesOf modelfile).map trimS).filter
    (fun l => l ≠ "" ∧ ¬ startsWithS l "#")
  let parameterLines := lines.filter (fun l => upperStarts l "PARAMETER ")
  let systemLines := lines.filter (fun l => upperStarts l "SYSTEM ")
  let errors :=
    fromErrors lines
      ++ parameterLines.flatMap paramLineErrors
      ++ systemLines.flatMap systemLineErrors
  { isValid := errors.length = 0, errors := errors }

/-! ## Submission orchestrator, pre-network phase
(`OllamaService.createModel`, `src/services/ollama.ts:45-78`) -/

/-- The model-name rewrite of `createModel`
(`src/services/ollama.ts:48`):
`name.trim().replace(/[^a-zA-Z0-9_-]/g, '').toLowerCase()`. -/
def jsCleanName (name : String) : String :=
  lowerS (filterNameChars (trimS name))

/-- Errors thrown by `createModel` before any network request. -/
inductive CreateErr
  | invalidName
  | validationFailed (errors : List String)
  | cleanFailed (e : CleanErr)
deriving DecidableEq, Repr

/-- The thrown `Error` messages (`src/services/ollama.ts:50,56` and the
re-thrown `cleanModelFile` errors). -/
def CreateErr.message : CreateErr → String
  | .invalidName => "Invalid model name. Use only letters, numbers, hyphens, and underscores."
  | .validationFailed errs => "ModelFile validation failed: " ++ String.intercalate ", " errs
  | .cleanFailed e => e.message

/-- The JSON payload handed to `fetch(${OLLAMA_BASE_URL}/create)`. -/
structure CreatePayload where
  name : String
  modelfile : String
deriving DecidableEq, Repr

/-- The phase of `OllamaService.createModel` that runs before the network
request (`src/services/ollama.ts:45-78`): clean the name, validate, clean
the ModelFile, and assemble the request payload.  A `.ok` result is
exactly the event "a network request is made, with this payload". -/
def createModelRequest (name modelfile : String) : Except CreateErr CreatePayload :=
  let cleanName := jsCleanName name
  if cleanName = "" then .error .invalidName
  else
    let validation := validateModelFile modelfile
    if ¬ validation.isValid then .error (.validationFailed validation.errors)
    else
      match cleanModelFile modelfile with
      | .error e => .error (.cleanFailed e)
      | .ok cleanedModelfile => .ok ⟨cleanName, cleanedModelfile⟩

/-! ## Document builder (`sanitizeNumericValue` / `generateModelFile`,
`src/components/create/CreateModel.tsx:208-248`) -/

/-- `sanitizeNumericValue` (`CreateModel.tsx:209-221`): strip non-numeric
characters, parse, fall back to the supplied default on `NaN`, clamp to
the given bounds, and re-render. -/
def sanitizeNumericValue (value : String) (min max : ℚ) (defaultValue : String) : String :=
  let cleaned := filterNumeric value
  match jsParseFloat cleaned with
  | none => defaultValue
  | some parsed =>
    if parsed < min then qToStr min
    else if max < parsed then qToStr max
    else qToStr parsed

/-- The creation wizard's structured configuration, as consumed by
`generateModelFile` (raw textual field values). -/
structure ModelConfig where
  baseModel : String
  temperature : String
  maxTokens : String
  topP : String
  topK : String
  repeatPenalty : String
  systemPrompt : String
deriving Repr

/-- JS `a || b` on strings (empty string is falsy). -/
def jsOr (a b : String) : String := if a = "" then b else a

/-- `generateModelFile` (`CreateModel.tsx:223-248`): sanitize the six…
five emitted numeric fields, substitute defaults for a blank base model
and blank system prompt, and emit the fixed template. -/
def generateModelFile (cfg : ModelConfig) : String :=
  let sanitizedTemp := sanitizeNumericValue cfg.temperature (mkRat 1 10) 2 "0.8"
  let sanitizedCtx := sanitizeNumericValue cfg.maxTokens 512 32768 "2048"
  let sanitizedTopP := sanitizeNumericValue cfg.topP (mkRat 1 10) 1 "0.9"
  let sanitizedTopK := sanitizeNumericValue cfg.topK 1 100 "40"
  let sanitizedRepeat := sanitizeNumericValue cfg.repeatPenalty (mkRat 1 2) 2 "1.1"
  let baseModel := jsOr (trimS cfg.baseModel) "llama3.2"
  let systemPrompt := jsOr (trimS cfg.systemPrompt) "You are a helpful AI assistant."
  "FROM " ++ baseModel ++
    "\n\n# Model parameters\nPARAMETER temperature " ++ sanitizedTemp ++
    "\nPARAMETER num_ctx " ++ sanitizedCtx ++
    "\nPARAMETER top_p " ++ sanitizedTopP ++
    "\nPARAMETER top_k " ++ sanitizedTopK ++
    "\nPARAMETER repeat_penalty " ++ sanitizedRepeat ++
    "\n\n# System message\nSYSTEM \"\"\"" ++ systemPrompt ++ "\"\"\""

/-- Names of the PARAMETER directives of a document, in emitted order. -/
def paramNamesOf (s : String) : List String :=
  ((linesOf s).map trimS).filterMap fun l =>
    if upperStarts l "PARAMETER " then some ((splitWsS l).getD 1 "") else none

/-! ## Streamed progress (`createModel` stream loop,
`src/services/ollama.ts:112-146`, and the UI progress callback,
`src/components/create/CreateModel.tsx:348-373`) -/

/-- One parsed line of the `/api/create` NDJSON stream. -/
structure StreamEvent where
  status : Option String := none
  digest : Option String := none
  total : Option ℚ := none
  completed : Option ℚ := none
  error : Option String := none
  done : Bool := false
deriving Repr

/-- JS truthiness of a possibly-absent string field. -/
def truthyS : Option String → Bool
  | some s => s ≠ ""
  | none => false

/-- JS truthiness of a possibly-absent numeric field. -/
def truthyN : Option ℚ → Bool
  | some q => q ≠ 0
  | none => false

/-- `data.status || 'Processing'`. -/
def statusOr (ev : StreamEvent) (dflt : String) : String :=
  match ev.status with
  | some s => if s = "" then dflt else s
  | none => dflt

/-- Terminal state of the stream loop. -/
inductive StreamOutcome
  | inProgress
  | succeeded
  | failed (msg : String)
deriving DecidableEq, Repr

/-- The progress strings a single event hands to `onProgress`
(`src/services/ollama.ts:117-127`): the raw status when truthy, then the
percentage message `round(completed / total * 100)` when `digest`,
`total` and `completed` are all truthy. -/
def eventMessages (ev : StreamEvent) : List String :=
  (if truthyS ev.status then [ev.status.getD ""] else []) ++
    (if truthyS ev.digest && truthyN ev.total && truthyN ev.completed then
      [statusOr ev "Processing" ++ ": " ++
        intToStr (jsRound (qMul (qDiv (ev.completed.getD 0) (ev.total.getD 0)) 100)) ++ "%"]
    else [])

/-- The stream loop over the parsed lines of a chunk
(`src/services/ollama.ts:112-146`): emit each event's messages; throw on
an `error` field; on `status === 'success'` (or `done` with a truthy
status) emit the completion message and stop. -/
def processEvents : List StreamEvent → List String × StreamOutcome
  | [] => ([], .inProgress)
  | ev :: rest =>
    let msgs := eventMessages ev
    match ev.error with
    | some e => (msgs, .failed e)
    | none =>
      if ev.status = some "success" ∨ (ev.done ∧ truthyS ev.status) then
        (msgs ++ ["Model created successfully!"], .succeeded)
      else
        let (ms, out) := processEvents rest
        (msgs ++ ms, out)

/-- The digits captured by the first match of `/(\d+)%/`: the maximal
digit run ending immediately before the first `%` that follows at least
one digit. -/
def percentDigitsAux : ℕ → List Char → Option (List Char)
  | 0, _ => none
  | _, [] => none
  | fuel + 1, c :: rest =>
    if c.isDigit then
      match rest.dropWhile Char.isDigit with
      | '%' :: _ => some (c :: rest.takeWhile Char.isDigit)
      | after => percentDigitsAux fuel after
    else percentDigitsAux fuel rest

/-- Entry point for the `/(\d+)%/` search; the fuel `l.length` is enough
because every step strictly shortens the list. -/
def percentDigits (l : List Char) : Option (List Char) :=
  percentDigitsAux l.length l

/-- The UI progress callback (`CreateModel.tsx:348-373`): map a status
message to the progress value it sets, or `none` when the message sets
none.  Keyword milestones come first, so a percentage message whose
status contains a keyword maps to the milestone, not the percentage. -/
def uiProgressOf (statusMessage : String) : Option ℕ :=
  let status := jsOr statusMessage "Processing..."
  let statusLower := lowerS status
  if includesS statusLower "pulling" || includesS statusLower "downloading" then some 20
  else if includesS statusLower "verifying" || includesS statusLower "verify" then some 40
  else if includesS statusLower "writing" || includesS statusLower "creating" then some 60
  else if includesS statusLower "using" || includesS statusLower "finalizing" then some 80
  else if includesS statusLower "success" || includesS statusLower "complete" then some 100
  else if includesS statusLower "%" then
    match percentDigits status.data with
    | some d => some (min (natOfDigits d) 95)
    | none => none
  else none

/-- The sequence of progress values the UI observes for a message list. -/
def uiTrace (msgs : List String) : List ℕ := msgs.filterMap uiProgressOf

/-- The progress values observed for a chunk of stream events. -/
def uiTraceOfEvents (evs : List StreamEvent) : List ℕ :=
  uiTrace (processEvents evs).1

/-- A progress sequence never regresses. -/
def traceMonotone : List ℕ → Bool
  | [] => true
  | [_] => true
  | a :: b :: rest => a ≤ b && traceMonotone (b :: rest)

/-- Whether an `Except` computation succeeded. -/
def exceptIsOk {ε α : Type} : Except ε α → Bool
  | .ok _ => true
  | .error _ => false

/-! ## Helper lemmas -/

/-- Unfolding equation for `leadsWith` on two nonempty lists. -/
theorem leadsWith_cons (c : Char) (l : List Char) (p : Char) (ps : List Char) :
    leadsWith (c :: l) (p :: ps) = (c = p && leadsWith l ps) := rfl

/-- A line whose keyword is `PARAMETER` is not a `FROM` line: the two
case-insensitive prefix tests disagree on the first character. -/
theorem not_from_of_parameter (s : String) (h : upperStarts s "PARAMETER " = true) :
    upperStarts s "FROM " = false := by
  unfold upperStarts startsWithS at h ⊢
  cases hd : (upperS s).data with
  | nil => rw [hd] at h; exact absurd h (by decide)
  | cons u us =>
    rw [hd] at h
    have hpat : ("PARAMETER ").data = 'P' :: ("ARAMETER ").data := rfl
    have hfat : ("FROM ").data = 'F' :: ("ROM ").data := rfl
    rw [hpat, leadsWith_cons] at h
    rw [hfat, leadsWith_cons]
    have hu : u = 'P' := by
      rcases Bool.and_eq_true_iff.mp h with ⟨h1, -⟩
      exact of_decide_eq_true h1
    subst hu
    simp

/-- A line whose case-insensitive keyword starts with a letter `p`
(other than `#`) does not start with the comment character `#`. -/
theorem not_hash_of_upperStarts (s : String) (p : Char) (ps : List Char)
    (hp : p ≠ '#') (h : leadsWith (upperS s).data (p :: ps) = true) :
    startsWithS s "#" = false := by
  unfold startsWithS
  cases hd : s.data with
  | nil =>
    have hu : (upperS s).data = [] := by simp [upperS, hd]
    rw [hu] at h
    simp [leadsWith] at h
  | cons c cs =>
    have hu : (upperS s).data = c.toUpper :: cs.map Char.toUpper := by
      simp [upperS, hd]
    rw [hu, leadsWith_cons] at h
    have hc : c.toUpper = p := of_decide_eq_true (Bool.and_eq_true_iff.mp h).1
    have hpat : ("#").data = '#' :: ([] : List Char) := rfl
    rw [hpat, leadsWith_cons]
    have hcn : c ≠ '#' := by
      intro he
      rw [he] at hc
      exact hp (hc ▸ rfl)
    simp [hcn]

/-- `Char.ofNat` on a valid code point round-trips through `toNat`. -/
theorem toNat_ofNat_valid {n : ℕ} (h : n.isValidChar) : (Char.ofNat n).toNat = n := by
  unfold Char.ofNat
  rw [dif_pos h]
  rfl

/-- Characters with distinct code points are distinct. -/
theorem charEq_false_of_toNat_ne (a K : Char) (hne : a.toNat ≠ K.toNat) :
    (decide (a = K)) = false := by
  simp only [decide_eq_false_iff_not]
  intro he
  exact hne (congrArg Char.toNat he)

/-- `toUpperCase` preserves whitespace-ness: it maps `a`–`z` into
`A`–`Z` (never a whitespace character) and fixes everything else. -/
theorem isWs_toUpper (c : Char) : isWs c.toUpper = isWs c := by
  by_cases h : c.toNat ≥ 97 ∧ c.toNat ≤ 122
  · have hup : c.toUpper = Char.ofNat (c.toNat - 32) := by
      unfold Char.toUpper
      rw [if_pos h]
    have hv : (Char.ofNat (c.toNat - 32)).toNat = c.toNat - 32 :=
      toNat_ofNat_valid (Or.inl (by omega))
    have h97 : 97 ≤ c.toNat := h.1
    rw [hup]
    unfold isWs Char.isWhitespace
    rw [charEq_false_of_toNat_ne _ ' ' (by rw [hv, show (' ').toNat = 32 from rfl]; omega),
      charEq_false_of_toNat_ne _ '\t' (by rw [hv, show ('\t').toNat = 9 from rfl]; omega),
      charEq_false_of_toNat_ne _ '\r' (by rw [hv, show ('\r').toNat = 13 from rfl]; omega),
      charEq_false_of_toNat_ne _ '\n' (by rw [hv, show ('\n').toNat = 10 from rfl]; omega),
      charEq_false_of_toNat_ne _ ' ' (by rw [show (' ').toNat = 32 from rfl]; omega),
      charEq_false_of_toNat_ne _ '\t' (by rw [show ('\t').toNat = 9 from rfl]; omega),
      charEq_false_of_toNat_ne _ '\r' (by rw [show ('\r').toNat = 13 from rfl]; omega),
      charEq_false_of_toNat_ne _ '\n' (by rw [show ('\n').toNat = 10 from rfl]; omega)]
  · have hup : c.toUpper = c := by
      unfold Char.toUpper
      rw [if_neg h]
    rw [hup]

/-- Peeling one pattern character off a prefix match through `map`. -/
theorem leadsWith_map_cons {f : Char → Char} {l : List Char} {p : Char} {ps : List Char}
    (h : leadsWith (l.map f) (p :: ps) = true) :
    ∃ c l2, l = c :: l2 ∧ f c = p ∧ leadsWith (l2.map f) ps = true := by
  cases l with
  | nil => simp [leadsWith] at h
  | cons c l2 =>
    rw [List.map_cons, leadsWith_cons] at h
    obtain ⟨h1, h2⟩ := Bool.and_eq_true_iff.mp h
    exact ⟨c, l2, rfl, of_decide_eq_true h1, h2⟩

/-- The first element surviving `dropWhile p` does not satisfy `p`. -/
theorem head?_dropWhile_not (p : Char → Bool) :
    ∀ (l : List Char) (a : Char), (l.dropWhile p).head? = some a → p a = false := by
  intro l
  induction l with
  | nil => intro a h; simp at h
  | cons b bs ih =>
    intro a h
    by_cases hb : p b = true
    · rw [List.dropWhile_cons, if_pos hb] at h
      exact ih a h
    · rw [List.dropWhile_cons, if_neg hb] at h
      simp only [List.head?_cons, Option.some.injEq] at h
      rw [← h]
      exact Bool.not_eq_true _ |>.mp hb

/-- A trimmed character list never ends in whitespace. -/
theorem trimL_ends_not_ws (w : List Char) (a : Char)
    (h : (trimL w).reverse.head? = some a) : isWs a = false := by
  have hrw : (trimL w).reverse = ((w.dropWhile isWs).reverse).dropWhile isWs := by
    simp [trimL, List.reverse_reverse]
  rw [hrw] at h
  exact head?_dropWhile_not isWs _ a h

/-- `dropWhile` is the identity when no element satisfies the test. -/
theorem dropWhile_eq_self_of_all (p : Char → Bool) (l : List Char)
    (h : ∀ c ∈ l, p c = false) : l.dropWhile p = l := by
  cases l with
  | nil => rfl
  | cons a as =>
    rw [List.dropWhile_cons, if_neg]
    simp [h a (List.mem_cons_self _ _)]

/-- Trimming a whitespace-free list is the identity. -/
theorem trimL_eq_self_of_no_ws (w : List Char) (h : ∀ c ∈ w, isWs c = false) :
    trimL w = w := by
  unfold trimL
  rw [dropWhile_eq_self_of_all isWs w h,
    dropWhile_eq_self_of_all isWs w.reverse (fun c hc => h c (List.mem_reverse.mp hc)),
    List.reverse_reverse]

/-- A string built from a nonempty character list is not the empty string. -/
theorem mk_ne_empty {w : List Char} (hw : w ≠ []) : (⟨w⟩ : String) ≠ "" := by
  intro he
  exact hw (congrArg String.data he)

/-- `splitPred` always yields at least one piece. -/
theorem splitPred_ne_nil (p : Char → Bool) : ∀ l : List Char, splitPred p l ≠ [] := by
  intro l
  induction l with
  | nil => simp [splitPred]
  | cons a as ih =>
    by_cases ha : p a = true
    · simp [splitPred, ha]
    · simp only [splitPred, ha]
      obtain ⟨h, t, heq⟩ := List.exists_cons_of_ne_nil ih
      rw [heq]
      simp

/-- No piece produced by `splitPred` contains a separator character. -/
theorem splitPred_pieces_no_sep (p : Char → Bool) :
    ∀ (l : List Char) (piece : List Char), piece ∈ splitPred p l →
      ∀ c ∈ piece, p c = false := by
  intro l
  induction l with
  | nil =>
    intro piece hp c hc
    simp [splitPred] at hp
    rw [hp] at hc
    simp at hc
  | cons a as ih =>
    intro piece hp c hc
    by_cases ha : p a = true
    · rw [show splitPred p (a :: as) = [] :: splitPred p as by simp [splitPred, ha]] at hp
      rcases List.mem_cons.mp hp with he | hm
      · rw [he] at hc; simp at hc
      · exact ih piece hm c hc
    · obtain ⟨h, t, heq⟩ := List.exists_cons_of_ne_nil (splitPred_ne_nil p as)
      rw [show splitPred p (a :: as) = (a :: h) :: t by simp [splitPred, ha, heq]] at hp
      rcases List.mem_cons.mp hp with he | hm
      · rw [he] at hc
        rcases List.mem_cons.mp hc with hce | hcm
        · rw [hce]; simpa using ha
        · exact ih h (heq ▸ List.mem_cons_self h t) c hcm
      · exact ih piece (heq ▸ List.mem_cons_of_mem h hm) c hc

/-- Unfolding `splitPred` at a separator character. -/
theorem splitPred_cons_pos (p : Char → Bool) (a : Char) (l : List Char)
    (ha : p a = true) : splitPred p (a :: l) = [] :: splitPred p l := by
  simp [splitPred, ha]

/-- Unfolding `splitPred` at a non-separator character. -/
theorem splitPred_cons_neg (p : Char → Bool) (a : Char) (l : List Char)
    (h : List Char) (t : List (List Char))
    (ha : p a = false) (heq : splitPred p l = h :: t) :
    splitPred p (a :: l) = (a :: h) :: t := by
  rw [show splitPred p (a :: l) = if p a = true then [] :: splitPred p l
      else (match splitPred p l with
            | [] => [[a]]
            | h :: t => (a :: h) :: t) from rfl]
  rw [if_neg (by simp [ha]), heq]

/-- A leading whitespace character does not change the token list. -/
theorem splitWsL_cons_ws {a : Char} (l : List Char) (ha : isWs a = true) :
    splitWsL (a :: l) = splitWsL l := by
  unfold splitWsL
  rw [splitPred_cons_pos isWs a l ha]
  simp

/-- A list containing a non-whitespace character has at least one token. -/
theorem splitWsL_ne_nil : ∀ (l : List Char), (∃ c ∈ l, isWs c = false) →
    splitWsL l ≠ [] := by
  intro l
  induction l with
  | nil => intro h; simp at h
  | cons a as ih =>
    intro hex
    by_cases ha : isWs a = true
    · rw [splitWsL_cons_ws as ha]
      obtain ⟨c, hc, hcw⟩ := hex
      rcases List.mem_cons.mp hc with he | hm
      · simp [he, ha] at hcw
      · exact ih ⟨c, hm, hcw⟩
    · obtain ⟨h, t, heq⟩ := List.exists_cons_of_ne_nil (splitPred_ne_nil isWs as)
      unfold splitWsL
      rw [splitPred_cons_neg isWs a as h t (Bool.not_eq_true _ |>.mp ha) heq]
      simp

/-- Token structure of a line made of four non-whitespace characters, a
whitespace separator, and a remainder. -/
theorem splitWsL_shape5 (c0 c1 c2 c3 c4 : Char) (rest : List Char)
    (h0 : isWs c0 = false) (h1 : isWs c1 = false) (h2 : isWs c2 = false)
    (h3 : isWs c3 = false) (h4 : isWs c4 = true) :
    splitWsL (c0 :: c1 :: c2 :: c3 :: c4 :: rest) =
      [c0, c1, c2, c3] :: splitWsL rest := by
  obtain ⟨h, t, heq⟩ := List.exists_cons_of_ne_nil (splitPred_ne_nil isWs rest)
  have e4 := splitPred_cons_pos isWs c4 rest h4
  rw [heq] at e4
  have e3 := splitPred_cons_neg isWs c3 _ _ _ h3 e4
  have e2 := splitPred_cons_neg isWs c2 _ _ _ h2 e3
  have e1 := splitPred_cons_neg isWs c1 _ _ _ h1 e2
  have e0 := splitPred_cons_neg isWs c0 _ _ _ h0 e1
  unfold splitWsL
  rw [e0, heq]
  simp

/-- A trimmed line whose case-insensitive keyword is `FROM ` always
carries a nonempty second token: its first four characters are
non-whitespace, the fifth is whitespace, and — the line being trimmed —
a non-whitespace character follows, forming a further token.  This is
why the source's empty-base-model throw is unreachable. -/
theorem from_line_has_token (l : String) (h : upperStarts (trimS l) "FROM " = true) :
    2 ≤ (splitWsS (trimS l)).length ∧ trimS ((splitWsS (trimS l)).getD 1 "") ≠ "" := by
  have hld : leadsWith ((trimS l).data.map Char.toUpper) (("FROM ").data) = true := h
  rw [show ("FROM ").data = 'F' :: 'R' :: 'O' :: 'M' :: ' ' :: [] from rfl] at hld
  obtain ⟨c0, l1, hl1, hu0, hld⟩ := leadsWith_map_cons hld
  obtain ⟨c1, l2, hl2, hu1, hld⟩ := leadsWith_map_cons hld
  obtain ⟨c2, l3, hl3, hu2, hld⟩ := leadsWith_map_cons hld
  obtain ⟨c3, l4, hl4, hu3, hld⟩ := leadsWith_map_cons hld
  obtain ⟨c4, rest, hl5, hu4, -⟩ := leadsWith_map_cons hld
  have htd : (trimS l).data = c0 :: c1 :: c2 :: c3 :: c4 :: rest := by
    rw [hl1, hl2, hl3, hl4, hl5]
  have w0 : isWs c0 = false := by rw [← isWs_toUpper, hu0]; decide
  have w1 : isWs c1 = false := by rw [← isWs_toUpper, hu1]; decide
  have w2 : isWs c2 = false := by rw [← isWs_toUpper, hu2]; decide
  have w3 : isWs c3 = false := by rw [← isWs_toUpper, hu3]; decide
  have w4 : isWs c4 = true := by rw [← isWs_toUpper, hu4]; decide
  have hrest : ∃ c ∈ rest, isWs c = false := by
    by_contra hno
    push_neg at hno
    cases hr : rest.reverse with
    | nil =>
      have hrn : rest = [] := by
        rw [← List.reverse_reverse rest, hr]
        rfl
      have hhead : ((trimS l).data.reverse).head? = some c4 := by
        rw [htd, hrn]
        rfl
      have := trimL_ends_not_ws l.data c4 hhead
      simp [w4] at this
    | cons a as =>
      have hmem : a ∈ rest := by
        have : a ∈ rest.reverse := by rw [hr]; exact List.mem_cons_self _ _
        exact List.mem_reverse.mp this
      have hws : isWs a = true := Bool.ne_false_iff.mp (hno a hmem)
      have hhead : ((trimS l).data.reverse).head? = some a := by
        rw [htd]
        rw [show (c0 :: c1 :: c2 :: c3 :: c4 :: rest).reverse =
            rest.reverse ++ [c4, c3, c2, c1, c0] from by simp]
        rw [hr]
        rfl
      have := trimL_ends_not_ws l.data a hhead
      simp [hws] at this
  have hsplit : splitWsL (trimS l).data = [c0, c1, c2, c3] :: splitWsL rest := by
    rw [htd]
    exact splitWsL_shape5 c0 c1 c2 c3 c4 rest w0 w1 w2 w3 w4
  obtain ⟨tok, toks, htok⟩ :=
    List.exists_cons_of_ne_nil (splitWsL_ne_nil rest hrest)
  have hparts : splitWsS (trimS l) =
      (⟨[c0, c1, c2, c3]⟩ : String) :: (⟨tok⟩ : String) :: toks.map String.mk := by
    unfold splitWsS
    rw [hsplit, htok]
    rfl
  have htokmem : tok ∈ splitWsL rest := by
    rw [htok]
    exact List.mem_cons_self _ _
  have hmf := List.mem_filter.mp htokmem
  have htok_ne : tok ≠ [] := of_decide_eq_true hmf.2
  have hall : ∀ c ∈ tok, isWs c = false :=
    fun c hc => splitPred_pieces_no_sep isWs rest tok hmf.1 c hc
  constructor
  · rw [hparts]
    simp
  · rw [hparts]
    rw [show ((⟨[c0, c1, c2, c3]⟩ : String) :: (⟨tok⟩ : String) ::
        toks.map String.mk).getD 1 "" = (⟨tok⟩ : String) from rfl]
    rw [show trimS (⟨tok⟩ : String) = (⟨tok⟩ : String) from by
      unfold trimS
      rw [show (⟨tok⟩ : String).data = tok from rfl, trimL_eq_self_of_no_ws tok hall]]
    exact mk_ne_empty htok_ne

/-- The per-line normalizer never throws: the one error arm — the
empty-base-model case of the FROM branch — is unreachable by
`from_line_has_token`. -/
theorem cleanLine_never_errors (l : String) : ∃ r, cleanLine l = .ok r := by
  simp only [cleanLine]
  split_ifs <;>
    first
      | exact ⟨_, rfl⟩
      | exact absurd (from_line_has_token l (by assumption)) (by assumption)

/-- The line loop of `cleanModelFile` never throws. -/
theorem cleanLines_never_error (L : List String) : ∃ p, cleanLines L = .ok p := by
  induction L with
  | nil => exact ⟨([], false), rfl⟩
  | cons a as ih =>
    obtain ⟨⟨ls, f2⟩, hp⟩ := ih
    obtain ⟨⟨s, f1⟩, hl⟩ := cleanLine_never_errors a
    exact ⟨(s :: ls, f1 || f2), by simp [cleanLines, hl, hp]⟩

/-- A line processed without setting the FROM flag is not a FROM line. -/
theorem cleanLine_flag_false (l : String) (s : String)
    (h : cleanLine l = .ok (s, false)) :
    upperStarts (trimS l) "FROM " = false := by
  by_contra hF0
  have hF : upperStarts (trimS l) "FROM " = true := Bool.ne_false_iff.mp hF0
  have hne : ¬ trimS l = "" := by
    intro h0
    rw [h0] at hF
    exact absurd hF (by decide)
  have hHash : startsWithS (trimS l) "#" = false :=
    not_hash_of_upperStarts _ 'F' _ (by decide) hF
  have htok := from_line_has_token l hF
  simp only [cleanLine] at h
  rw [if_neg hne, if_neg (by simp [hHash]), if_pos hF, if_pos htok] at h
  simp at h

/-- If the whole loop leaves the FROM flag unset, no input line carries
the FROM keyword. -/
theorem cleanLines_flag_false : ∀ (L : List String) (ls : List String),
    cleanLines L = .ok (ls, false) →
    ∀ l ∈ L, upperStarts (trimS l) "FROM " = false := by
  intro L
  induction L with
  | nil =>
    intro ls h l hl
    simp at hl
  | cons a as ih =>
    intro ls h l hl
    obtain ⟨⟨s, f1⟩, hl1⟩ := cleanLine_never_errors a
    obtain ⟨⟨ls2, f2⟩, hp2⟩ := cleanLines_never_error as
    rw [show cleanLines (a :: as) = .ok (s :: ls2, f1 || f2) from by
      simp [cleanLines, hl1, hp2]] at h
    have hpair := Except.ok.inj h
    have hff : (f1 || f2) = false := by
      have := congrArg Prod.snd hpair
      simpa using this
    have hf1 : f1 = false := (Bool.or_eq_false_iff.mp hff).1
    have hf2 : f2 = false := (Bool.or_eq_false_iff.mp hff).2
    rcases List.mem_cons.mp hl with he | hm
    · rw [he]
      exact cleanLine_flag_false a s (hf1 ▸ hl1)
    · exact ih ls2 (hf2 ▸ hp2) l hm

/-- A `ValidationResult` built the way `validateModelFile` builds it has
`isValid` true exactly when its error list is empty. -/
theorem validationResult_mk_iff (E : List String) :
    (ValidationResult.mk (decide (E.length = 0)) E).isValid = true ↔
      (ValidationResult.mk (decide (E.length = 0)) E).errors = [] := by
  simp [List.length_eq_zero]

/-- `isValid` is the emptiness test on the accumulated error list. -/
theorem validateModelFile_isValid_iff (m : String) :
    (validateModelFile m).isValid = true ↔ (validateModelFile m).errors = [] :=
  validationResult_mk_iff _

/-! ## Claim theorems -/

/-- C1: normalization is *not* idempotent — contrary to the claim, a
SYSTEM line already in canonical form `SYSTEM """already quoted"""` gains
two further quote layers on each pass of `cleanModelFile` (the
double-quote branch fires before the dead triple-quote branch, stripping
one `"` from each end and re-wrapping in `"""`), so the first and second
normalizations of the same document differ. -/
theorem C1_canonical_system_line_accumulates_quotes :
    cleanModelFile "FROM llama3.2\nSYSTEM \"\"\"already quoted\"\"\"" =
      .ok "FROM llama3.2\nSYSTEM \"\"\"\"\"already quoted\"\"\"\"\"" ∧
    cleanModelFile "FROM llama3.2\nSYSTEM \"\"\"\"\"already quoted\"\"\"\"\"" =
      .ok "FROM llama3.2\nSYSTEM \"\"\"\"\"\"\"already quoted\"\"\"\"\"\"\"" ∧
    ("FROM llama3.2\nSYSTEM \"\"\"\"\"already quoted\"\"\"\"\"" : String) ≠
      "FROM llama3.2\nSYSTEM \"\"\"\"\"\"\"already quoted\"\"\"\"\"\"\"" := by
  refine ⟨by decide, by decide, by decide⟩

/-- C3: the validator accumulates every violation: the document
`PARAMETER temperature 5` with a `SYSTEM` line and no `FROM` yields
exactly the two violations (missing FROM, out-of-range temperature); and
in general `isValid` holds iff the violation list is empty. -/
theorem C3_validator_accumulates_all_violations :
    (validateModelFile "PARAMETER temperature 5\nSYSTEM hello").errors =
      ["ModelFile must contain a FROM instruction specifying the base model",
       "Temperature must be between 0.1 and 2.0, got: 5"] ∧
    (validateModelFile "PARAMETER temperature 5\nSYSTEM hello").errors.length = 2 ∧
    (validateModelFile "PARAMETER temperature 5\nSYSTEM hello").isValid = false ∧
    ∀ m : String, (validateModelFile m).isValid = true ↔ (validateModelFile m).errors = [] :=
  ⟨by decide, by decide, by decide, fun m => validationResult_mk_iff _⟩

/-- C5 counterexample: the normalizer does not round or truncate
`top_k 3.7` to an integer — `cleanParameterValue` re-emits exactly `3.7`,
whose parsed value is not an integer. -/
theorem C5_normalizer_keeps_fractional_top_k :
    cleanParameterValue "top_k" "3.7" = "3.7" ∧
    jsParseFloat "3.7" = some (mkRat 37 10) ∧
    jsIsInteger (mkRat 37 10) = false :=
  ⟨by decide, by decide, by decide⟩

/-- C5 (amended): on `PARAMETER top_k 3.7` the validator reports the
must-be-an-integer violation, while the normalizer (the full
`cleanModelFile` pass) leaves the directive unchanged, fractional value
included. -/
theorem C5_validator_flags_normalizer_preserves_top_k :
    (validateModelFile "FROM m\nPARAMETER top_k 3.7").errors =
      ["Top K must be an integer between 1 and 100, got: 3.7"] ∧
    cleanModelFile "FROM m\nPARAMETER top_k 3.7" = .ok "FROM m\nPARAMETER top_k 3.7" :=
  ⟨by decide, by decide⟩

/-- C10: `createModel` rewrites the target name by trimming, deleting
every character outside `[a-zA-Z0-9_-]`, and lowercasing; the
invalid-name error is thrown exactly when the rewritten name is empty
(before any network request), and an accepted submission carries the
rewritten — possibly different — name in its payload. -/
theorem C10_name_rewrite_and_abort_iff_empty (name modelfile : String) :
    (createModelRequest name modelfile = .error .invalidName ↔ jsCleanName name = "") ∧
    (∀ p, createModelRequest name modelfile = .ok p → p.name = jsCleanName name) := by
  constructor
  · constructor
    · intro h
      by_contra hn
      by_cases hv : (validateModelFile modelfile).isValid = true
      · rcases hc : cleanModelFile modelfile with e | c
        · simp [createModelRequest, hn, hv, hc] at h
        · simp [createModelRequest, hn, hv, hc] at h
      · simp [createModelRequest, hn, hv] at h
    · intro h
      simp [createModelRequest, h]
  · intro p hp
    by_cases hn : jsCleanName name = ""
    · simp [createModelRequest, hn] at hp
    · by_cases hv : (validateModelFile modelfile).isValid = true
      · rcases hc : cleanModelFile modelfile with e | c
        · simp [createModelRequest, hn, hv, hc] at hp
        · simp [createModelRequest, hn, hv, hc] at hp
          rw [← hp]
      · simp [createModelRequest, hn, hv] at hp

/-- C10 witness: the all-invalid name `"!!!"` cleans to the empty string
and aborts; `"My Model!"` is silently rewritten to `"mymodel"`, which is
the name the daemon would receive. -/
theorem C10_name_rewrite_and_abort_iff_empty_witness :
    createModelRequest "!!!" "FROM m" = .error .invalidName ∧
    (CreatePayload.mk "mymodel" "FROM m").name = jsCleanName "My Model!" :=
  ⟨(C10_name_rewrite_and_abort_iff_empty "!!!" "FROM m").1.mpr (by decide),
   (C10_name_rewrite_and_abort_iff_empty "My Model!" "FROM m").2
     ⟨"mymodel", "FROM m"⟩ (by decide)⟩

/-- C9: `validateModelFile` is a total function (its embedding is a plain
terminating definition), it yields a structured result on the empty
string and on comment-only input, and `isValid` equals the emptiness of
the error list on every input. -/
theorem C9_validateModelFile_total_isValid_iff_no_errors :
    (validateModelFile "").errors =
      ["ModelFile must contain a FROM instruction specifying the base model"] ∧
    (validateModelFile "# only a comment\n\n").errors =
      ["ModelFile must contain a FROM instruction specifying the base model"] ∧
    ∀ m : String, (validateModelFile m).isValid = true ↔ (validateModelFile m).errors = [] :=
  ⟨by decide, by decide, fun m => validateModelFile_isValid_iff m⟩

/-- C2 counterexample: the service normalizer `cleanParameterValue` does
*not* clamp: `temperature 5` (above the max `2.0`) is re-emitted as `5`,
not as the bound `2`; and even the clamping builder does not preserve an
in-range value textually exactly (`0.50` becomes `0.5`). -/
theorem C2_normalizer_never_clamps :
    cleanParameterValue "temperature" "5" = "5" ∧
    ("5" : String) ≠ qToStr 2 ∧
    jsParseFloat "5" = some 5 ∧ (2 : ℚ) < 5 ∧
    sanitizeNumericValue "0.50" (mkRat 1 10) 2 "0.8" = "0.5" ∧ ("0.5" : String) ≠ "0.50" :=
  ⟨by decide, by decide, by decide, by decide, by decide, by decide⟩

/-- C2 (amended): for every known numeric parameter, the *builder's*
`sanitizeNumericValue` substitutes the supplied default when the cleaned
value is unparsable, clamps a below-min value to min and an above-max
value to max, and re-renders an in-range value as the numeral of its
parsed numeric value; the *service normalizer* `cleanParameterValue`
substitutes the descriptor-table default when unparsable but re-renders a
parsed value unclamped, even out of range. -/
theorem C2_builder_clamps_normalizer_defaults_unclamped
    (v : String) (lo hi : ℚ) (d : String) (name : String)
    (hname : numericParams.contains (lowerS name) = true) :
    (jsParseFloat (filterNumeric v) = none →
      sanitizeNumericValue v lo hi d = d ∧
      cleanParameterValue name v = defaultFor (lowerS name)) ∧
    (∀ q, jsParseFloat (filterNumeric v) = some q →
      (q < lo → sanitizeNumericValue v lo hi d = qToStr lo) ∧
      (¬ q < lo → hi < q → sanitizeNumericValue v lo hi d = qToStr hi) ∧
      (¬ q < lo → ¬ hi < q → sanitizeNumericValue v lo hi d = qToStr q) ∧
      cleanParameterValue name v = qToStr q) := by
  have hm : lowerS name ∈ numericParams := by simpa using hname
  constructor
  · intro h
    constructor
    · simp [sanitizeNumericValue, h]
    · simp [cleanParameterValue, hm, h]
  · intro q hq
    refine ⟨?_, ?_, ?_, ?_⟩
    · intro hlt
      simp [sanitizeNumericValue, hq, hlt]
    · intro h1 h2
      simp [sanitizeNumericValue, hq, h1, h2]
    · intro h1 h2
      simp [sanitizeNumericValue, hq, h1, h2]
    · simp [cleanParameterValue, hm, hq]

/-- C2 witness: instantiated at `temperature`, value `5`, range
`[0.1, 2.0]`, default `0.8`: the builder clamps `5` to `2`, the
normalizer leaves `5` unclamped. -/
theorem C2_builder_clamps_normalizer_defaults_unclamped_witness :
    sanitizeNumericValue "5" (mkRat 1 10) 2 "0.8" = qToStr 2 ∧
    cleanParameterValue "temperature" "5" = qToStr 5 := by
  have h := (C2_builder_clamps_normalizer_defaults_unclamped "5" (mkRat 1 10) 2 "0.8"
    "temperature" (by decide)).2 5 (by decide)
  exact ⟨h.2.1 (by decide) (by decide), h.2.2.2⟩

/-- C4: whenever the validator rejects a ModelFile, `createModel` throws
before any network request — the pre-network phase never reaches the
request payload, and when the model name survives cleaning the thrown
error carries the validator's violations verbatim. -/
theorem C4_validation_failure_blocks_network
    (name modelfile : String)
    (h : (validateModelFile modelfile).isValid = false) :
    exceptIsOk (createModelRequest name modelfile) = false ∧
    (jsCleanName name ≠ "" →
      createModelRequest name modelfile =
        .error (.validationFailed (validateModelFile modelfile).errors)) := by
  unfold createModelRequest
  by_cases hn : jsCleanName name = ""
  · simp [hn, exceptIsOk]
  · simp [hn, h, exceptIsOk]

/-- C4 witness: the empty ModelFile is invalid, and submitting it under
the name `mymodel` makes no network request. -/
theorem C4_validation_failure_blocks_network_witness :
    exceptIsOk (createModelRequest "mymodel" "") = false ∧
    createModelRequest "mymodel" "" =
      .error (.validationFailed (validateModelFile "").errors) :=
  have h := C4_validation_failure_blocks_network "mymodel" "" (by decide)
  ⟨h.1, h.2 (by decide)⟩

/-- C6 counterexample: the builder does not emit the parameters in the
descriptor-table order `temperature, top_p, top_k, repeat_penalty,
num_ctx, num_predict` — the actual emitted order is `temperature,
num_ctx, top_p, top_k, repeat_penalty`, and `num_predict` is not emitted
at all. -/
theorem C6_builder_order_differs_from_table :
    paramNamesOf (generateModelFile
        ⟨"llama3.2", "0.7", "2048", "0.9", "40", "1.1", ""⟩) =
      ["temperature", "num_ctx", "top_p", "top_k", "repeat_penalty"] ∧
    (["temperature", "num_ctx", "top_p", "top_k", "repeat_penalty"] : List String) ≠
      ["temperature", "top_p", "top_k", "repeat_penalty", "num_ctx", "num_predict"] :=
  ⟨by decide, by decide⟩

/-- C6 (amended): for every configuration with blank system text, the
builder emits the base-model directive first, then the parameter
directives in the order `temperature, num_ctx, top_p, top_k,
repeat_penalty` (no `num_predict`), then the system-text directive
carrying the substituted default "You are a helpful AI assistant."; a
blank base model is likewise replaced by `llama3.2`. -/
theorem C6_builder_fixed_order_and_default_system
    (cfg : ModelConfig) (h : trimS cfg.systemPrompt = "") :
    ∃ b t c p k r, b = jsOr (trimS cfg.baseModel) "llama3.2" ∧
      generateModelFile cfg =
        "FROM " ++ b ++
          "\n\n# Model parameters\nPARAMETER temperature " ++ t ++
          "\nPARAMETER num_ctx " ++ c ++
          "\nPARAMETER top_p " ++ p ++
          "\nPARAMETER top_k " ++ k ++
          "\nPARAMETER repeat_penalty " ++ r ++
          "\n\n# System message\nSYSTEM \"\"\"" ++
          "You are a helpful AI assistant." ++ "\"\"\"" := by
  refine ⟨jsOr (trimS cfg.baseModel) "llama3.2",
    sanitizeNumericValue cfg.temperature (mkRat 1 10) 2 "0.8",
    sanitizeNumericValue cfg.maxTokens 512 32768 "2048",
    sanitizeNumericValue cfg.topP (mkRat 1 10) 1 "0.9",
    sanitizeNumericValue cfg.topK 1 100 "40",
    sanitizeNumericValue cfg.repeatPenalty (mkRat 1 2) 2 "1.1",
    rfl, ?_⟩
  unfold generateModelFile
  rw [h]
  rfl

/-- C6 witness: a configuration whose system prompt is whitespace-only
receives the default assistant sentence, with the directives in the
actual fixed order. -/
theorem C6_builder_fixed_order_and_default_system_witness :
    ∃ b t c p k r, b = jsOr (trimS (ModelConfig.baseModel
        ⟨"llama3.2", "0.7", "2048", "0.9", "40", "1.1", "  "⟩)) "llama3.2" ∧
      generateModelFile ⟨"llama3.2", "0.7", "2048", "0.9", "40", "1.1", "  "⟩ =
        "FROM " ++ b ++
          "\n\n# Model parameters\nPARAMETER temperature " ++ t ++
          "\nPARAMETER num_ctx " ++ c ++
          "\nPARAMETER top_p " ++ p ++
          "\nPARAMETER top_k " ++ k ++
          "\nPARAMETER repeat_penalty " ++ r ++
          "\n\n# System message\nSYSTEM \"\"\"" ++
          "You are a helpful AI assistant." ++ "\"\"\"" :=
  C6_builder_fixed_order_and_default_system
    ⟨"llama3.2", "0.7", "2048", "0.9", "40", "1.1", "  "⟩ (by decide)

/-- C7 counterexample: a PARAMETER line with fewer than 3
whitespace-delimited tokens does *not* raise — the normalizer passes it
through unchanged. -/
theorem C7_short_parameter_line_not_an_error :
    cleanModelFile "FROM m\nPARAMETER temperature" =
      .ok "FROM m\nPARAMETER temperature" := by decide

/-- C7 (amended): the normalizer raises a structural error exactly when
no line carries the `FROM ` keyword, and that error is always
`missingFrom`: a document with no FROM-keyword line fails with
`missingFrom`, and conversely every error it can raise is `missingFrom`
on a document with no FROM-keyword line (the empty-base-model throw is
unreachable, because a trimmed `FROM ` line always carries a nonempty
second token); a PARAMETER line with fewer than 3 tokens is preserved
unchanged (not an error), and a line of unrecognized kind is likewise
preserved unchanged. -/
theorem C7_raises_only_on_missing_from :
    (∀ s : String, (∀ l ∈ linesOf s, upperStarts (trimS l) "FROM " = false) →
      cleanModelFile s = .error .missingFrom) ∧
    (∀ (s : String) (e : CleanErr), cleanModelFile s = .error e →
      e = .missingFrom ∧ ∀ l ∈ linesOf s, upperStarts (trimS l) "FROM " = false) ∧
    (∀ l : String, upperStarts (trimS l) "PARAMETER " = true →
      (splitWsS (trimS l)).length < 3 →
      cleanLine l = .ok (trimS l, false)) ∧
    (∀ l : String, trimS l ≠ "" → startsWithS (trimS l) "#" = false →
      upperStarts (trimS l) "FROM " = false →
      upperStarts (trimS l) "PARAMETER " = false →
      upperStarts (trimS l) "SYSTEM " = false →
      cleanLine l = .ok (trimS l, false)) := by
  refine ⟨?_, ?_, ?_, ?_⟩
  · intro s hs
    have key : ∀ L : List String,
        (∀ l ∈ L, upperStarts (trimS l) "FROM " = false) →
        ∃ ls, cleanLines L = .ok (ls, false) := by
      intro L
      induction L with
      | nil => exact fun _ => ⟨[], rfl⟩
      | cons a as ih =>
        intro hL
        obtain ⟨ls, hls⟩ := ih fun l hl => hL l (List.mem_cons_of_mem _ hl)
        have ha := hL a (List.mem_cons_self _ _)
        have hline : ∃ t, cleanLine a = .ok (t, false) := by
          simp only [cleanLine, ha]
          split_ifs <;> first | exact ⟨_, rfl⟩ | contradiction
        obtain ⟨t, ht⟩ := hline
        exact ⟨t :: ls, by simp [cleanLines, ht, hls]⟩
    obtain ⟨ls, hls⟩ := key (linesOf s) hs
    simp [cleanModelFile, hls]
  · intro s e h
    obtain ⟨⟨ls, flag⟩, hp⟩ := cleanLines_never_error (linesOf s)
    unfold cleanModelFile at h
    rw [hp] at h
    cases flag with
    | true => simp at h
    | false =>
      simp at h
      exact ⟨h.symm, cleanLines_flag_false (linesOf s) ls hp⟩
  · intro l hP hlen
    have hne : ¬ trimS l = "" := by
      intro h0
      rw [h0] at hP
      exact absurd hP (by decide)
    have hHash : startsWithS (trimS l) "#" = false :=
      not_hash_of_upperStarts _ 'P' _ (by decide) hP
    have hF := not_from_of_parameter _ hP
    simp only [cleanLine]
    rw [if_neg hne, if_neg (by simp [hHash]), if_neg (by simp [hF]), if_pos hP,
      if_neg (by omega)]
  · intro l hne hHash hF hPar hSys
    simp only [cleanLine]
    rw [if_neg hne, if_neg (by simp [hHash]), if_neg (by simp [hF]),
      if_neg (by simp [hPar]), if_neg (by simp [hSys])]

/-- C7 witness: a FROM-less document raises `missingFrom`; an observed
error is `missingFrom` and certifies that its lines carry no FROM
keyword; the short PARAMETER line and an unrecognized line are preserved
verbatim. -/
theorem C7_raises_only_on_missing_from_witness :
    cleanModelFile "PARAMETER temperature\nhello world" = .error .missingFrom ∧
    upperStarts (trimS "hello world") "FROM " = false ∧
    cleanLine "PARAMETER temperature" = .ok ("PARAMETER temperature", false) ∧
    cleanLine "hello world" = .ok ("hello world", false) :=
  ⟨C7_raises_only_on_missing_from.1 _ (by decide),
   (C7_raises_only_on_missing_from.2.1 "PARAMETER temperature\nhello world"
     CleanErr.missingFrom (by decide)).2 "hello world" (by decide),
   C7_raises_only_on_missing_from.2.2.1 _ (by decide) (by decide),
   C7_raises_only_on_missing_from.2.2.2 _ (by decide) (by decide) (by decide)
     (by decide) (by decide)⟩

/-- C8 counterexample: the observed progress sequence is *not*
monotonic — a "writing manifest" status (milestone 60) followed by a
byte-counter event ("Processing: 50%" → 50) regresses from 60 to 50. -/
theorem C8_progress_sequence_regresses :
    uiTraceOfEvents
        [⟨some "writing manifest", none, none, none, none, false⟩,
         ⟨none, some "sha", some 100, some 50, none, false⟩] = [60, 50] ∧
    traceMonotone [60, 50] = false :=
  ⟨by decide, by decide⟩

/-- C8 (amended): a streamed byte-counter event is reported as the
percentage `round(completed / total * 100)`; and every progress value the
UI callback sets from a status message that does not mention success or
completion is at most 95 — strictly below 100 — so 100% is reached only
on an explicit success/completion message.  Monotonicity of the observed
sequence is *not* guaranteed. -/
theorem C8_percent_formula_and_cap_below_100 :
    (∀ (d : String) (t c : ℚ), d ≠ "" → t ≠ 0 → c ≠ 0 →
      processEvents [⟨none, some d, some t, some c, none, false⟩] =
        (["Processing: " ++ intToStr (jsRound (qMul (qDiv c t) 100)) ++ "%"],
          .inProgress)) ∧
    (∀ (m : String) (v : ℕ), uiProgressOf m = some v →
      includesS (lowerS (jsOr m "Processing...")) "success" = false →
      includesS (lowerS (jsOr m "Processing...")) "complete" = false →
      v ≤ 95) := by
  constructor
  · intro d t c hd ht hc
    simp [processEvents, eventMessages, truthyS, truthyN, statusOr, hd, ht, hc]
  · intro m v h hs hc
    simp only [uiProgressOf] at h
    split_ifs at h with h1 h2 h3 h4 h5 h6
    · have := Option.some.inj h; omega
    · have := Option.some.inj h; omega
    · have := Option.some.inj h; omega
    · have := Option.some.inj h; omega
    · rw [hs, hc] at h5
      exact absurd h5 (by decide)
    · rcases hm : percentDigits (jsOr m "Processing...").data with _ | dgs
      · rw [hm] at h
        exact absurd h (by simp)
      · rw [hm] at h
        have hv : min (natOfDigits dgs) 95 = v := Option.some.inj h
        have := Nat.min_le_right (natOfDigits dgs) 95
        omega

/-- C8 witness: the spec's own scenario — digest `sha1`, 50 of 100
bytes — is reported as `Processing: 50%`, and that message maps to
progress 50 ≤ 95. -/
theorem C8_percent_formula_and_cap_below_100_witness :
    processEvents [⟨none, some "sha1", some 100, some 50, none, false⟩] =
      (["Processing: " ++ intToStr (jsRound (qMul (qDiv 50 100) 100)) ++ "%"],
        .inProgress) ∧
    (50 : ℕ) ≤ 95 :=
  ⟨C8_percent_formula_and_cap_below_100.1 "sha1" 100 50 (by decide) (by decide)
      (by decide),
   C8_percent_formula_and_cap_below_100.2 "Processing: 50%" 50 (by decide)
      (by decide) (by decide)⟩

end OllamaModelCreator
